import Mathlib

/-!
Verification of the wsgiservice request-dispatch pipeline: a shallow embedding of
`src/wsgiservice/application.py` (the `Application` class) together with theorems
about its conditional-request evaluation, method resolution, parameter binding,
validation and response assembly.

Conventions of the embedding:
* Python dicts that the pipeline reads and writes are association lists
  (`List (String × _)`); lookup finds the first matching key.
* Python `None` is `Option.none`; values that may be `None` are `Option _`.
* Header dictionaries map names to `Option String`, since the code builds
  dictionaries such as `{'ETag': etag}` whose values may be Python `None`.
* Timestamps (`datetime` values) are modelled as `Int`, ordered as the code
  compares them.  `datetime` objects are always truthy in Python, so only
  `None` is a falsy Last-Modified value.
* External collaborators (the `webob` request/response library, `hashlib.md5`,
  the stdlib `re` engine, the `Response` class, the router) are modelled only
  through the interface the pipeline uses, as the spec prescribes.
-/

namespace WsgiService

/-- First-match association-list lookup, modelling Python `d[k]` / `d.get(k)`. -/
def alookup {α : Type} (l : List (String × α)) (k : String) : Option α :=
  match l with
  | [] => none
  | (k', v) :: rest => if k' = k then some v else alookup rest k

/-- Python `k in d` for a dict modelled as an association list. -/
def anyKey {α : Type} (l : List (String × α)) (k : String) : Bool :=
  l.any (fun p => p.1 == k)

/-- Python `d[k] = v`: overwrite the entry in place when the key is present,
append a new entry otherwise. -/
def dictSet {α : Type} (l : List (String × α)) (k : String) (v : α) : List (String × α) :=
  if anyKey l k then l.map (fun p => if p.1 == k then (k, v) else p)
  else l ++ [(k, v)]

/-- Truthiness of a Python string-or-None value (`if value and ...`). -/
def pyTruthyStr : Option String → Bool
  | none => false
  | some s => s ≠ ""

/-- Python `s.replace('"', '')`: every double-quote character is removed. -/
def stripQuotes (s : String) : String :=
  ⟨s.data.filter (fun c => c ≠ '"')⟩

/-- Abstract syntax of the regular expressions attached to validation rules
(the pipeline stores the pattern opaquely and hands it to the stdlib `re`
engine; the fragment below covers the patterns the repository's rules use). -/
inductive Regex where
  | emptyset : Regex
  | eps : Regex
  | lit : Char → Regex
  | cls : Char → Char → Regex
  | cat : Regex → Regex → Regex
  | alt : Regex → Regex → Regex
  | star : Regex → Regex
deriving DecidableEq

/-- Whether a regular expression accepts the empty string. -/
def Regex.nullable : Regex → Bool
  | .emptyset => false
  | .eps => true
  | .lit _ => false
  | .cls _ _ => false
  | .cat a b => a.nullable && b.nullable
  | .alt a b => a.nullable || b.nullable
  | .star _ => true

/-- Brzozowski derivative of a regular expression by one character. -/
def Regex.deriv : Regex → Char → Regex
  | .emptyset, _ => .emptyset
  | .eps, _ => .emptyset
  | .lit c, x => if x = c then .eps else .emptyset
  | .cls lo hi, x => if lo ≤ x ∧ x ≤ hi then .eps else .emptyset
  | .cat a b, x =>
    if a.nullable then .alt (.cat (a.deriv x) b) (b.deriv x) else .cat (a.deriv x) b
  | .alt a b, x => .alt (a.deriv x) (b.deriv x)
  | .star a, x => .cat (a.deriv x) (.star a)

/-- Derivative-based matcher: does `r` match the whole character list? -/
def Regex.matchList : Regex → List Char → Bool
  | r, [] => r.nullable
  | r, c :: cs => (r.deriv c).matchList cs

/-- Models Python `re.search('^' + p + '$', v)` as used by `_validate_param`:
anchoring the pattern at both ends makes the search a full match of the
pattern against the value.  The stdlib engine itself is external to this
repository; it is modelled by a standard derivative matcher. -/
def reFullMatch (p : Regex) (v : String) : Bool :=
  p.matchList v.data

/-- The pattern `[0-9]+` (the spec's example validation pattern). -/
def digitsPlus : Regex :=
  .cat (.cls '0' '9') (.star (.cls '0' '9'))

/-- A per-parameter validation rule set.  `re = none` models a rule dict with
no truthy `'re'` entry (the code checks `'re' in rules and rules['re']`). -/
structure Rules where
  re : Option Regex
deriving DecidableEq

/-- A value bound to a handler parameter by `_call_dynamic_method`: the request
object itself, a string from path/query/form parameters, or Python `None`. -/
inductive ParamValue where
  | reqVal : ParamValue
  | strVal : String → ParamValue
  | noneVal : ParamValue
deriving DecidableEq

/-- Response body payloads the pipeline constructs or passes through:
Python `None`, a string, an `{'error': msg}` dict, or an opaque handler
payload identified by a tag. -/
inductive BodyVal where
  | pnone : BodyVal
  | pstr : String → BodyVal
  | perr : String → BodyVal
  | ptag : Nat → BodyVal
deriving DecidableEq

/-- What a handler returns: a plain body, or a `MiniResponse(body, headers)`
whose `headers` may be Python `None`. -/
inductive HandlerRet where
  | plain : BodyVal → HandlerRet
  | mini : BodyVal → Option (List (String × Option String)) → HandlerRet
deriving DecidableEq

/-- One method of a resource instance, as `_call_dynamic_method` sees it:
its declared parameter names (`self` already removed, as the code pops it),
its `_validations` attribute (`none` when the attribute is absent), and its
body, abstracted to a function from the bound arguments to its return value. -/
structure MethodSpec where
  params : List String
  validations : Option (List (String × Rules))
  impl : List ParamValue → HandlerRet

/-- A resource instance.  `attrs` models `dir(instance)` paired with
callability of each attribute; `methods` gives the `MethodSpec` of each
method; `classValidations` models the `_validations` attribute of the
resource class (`method.im_class._validations`).  The results of invoking the
optional `get_etag` / `get_last_modified` capabilities are abstracted to the
values they return for the current request. -/
structure ResourceInstance where
  attrs : List (String × Bool)
  methods : List (String × MethodSpec)
  classValidations : Option (List (String × Rules))
  etagReturn : Option String
  lastModifiedReturn : Option Int

/-- The request context: the slice of the `webob.Request` / WSGI environ that
the pipeline reads.  `ifMatch = none` models an absent If-Match header
(webob's `AnyETag`, which contains every tag); an absent If-None-Match header
is the empty list (webob's `NoETag`, which contains no tag). -/
structure ReqCtx where
  method : String
  ifMatch : Option (List String)
  ifNoneMatch : List String
  ifModifiedSince : Option Int
  ifUnmodifiedSince : Option Int
  queryGET : List (String × String)
  formPOST : List (String × String)
  contentMD5 : Option String
  rawBody : List Nat
deriving DecidableEq

/-- A response, recording the arguments the pipeline passes to the external
`Response` constructor: status, header dict, body, and the representation
extension taken from the path parameters. -/
structure Resp where
  status : Nat
  headers : List (String × Option String)
  body : BodyVal
  extension : Option String
deriving DecidableEq

/-- Python `hasattr(instance, name)`. -/
def hasAttr (attrs : List (String × Bool)) (name : String) : Bool :=
  attrs.any (fun p => p.1 == name)

/-- Python `hasattr(instance, name) and callable(getattr(instance, name))`. -/
def hasCallableAttr (attrs : List (String × Bool)) (name : String) : Bool :=
  attrs.any (fun p => p.1 == name && p.2)

/-- `Application._resolve_method`: return the verb itself when the instance
has a callable attribute of that name; otherwise, for `HEAD`, retry with
`GET` (the single recursive call of the source, unfolded here); otherwise
none. -/
def resolveMethod (attrs : List (String × Bool)) (m : String) : Option String :=
  if hasCallableAttr attrs m then some m
  else if m = "HEAD" then
    if hasCallableAttr attrs "GET" then some "GET" else none
  else none

/-- `Application._get_allowed_methods`: the comma-space join of every
attribute name that equals its own uppercasing and is callable. -/
def getAllowedMethods (attrs : List (String × Bool)) : String :=
  String.intercalate ", "
    ((attrs.filter (fun p => p.1.toUpper == p.1 && p.2)).map Prod.fst)

/-- `Application._get_etag`: `none` without a `get_etag` attribute; otherwise
the capability's return value, wrapped in double quotes after removing every
embedded double quote, when it is truthy; `none` (Python's implicit return)
otherwise.  The invocation of the capability through `_call_dynamic_method`
is abstracted here to the value it returns; `getEtagX` below models the
invocation itself, which can raise. -/
def getEtag (inst : ResourceInstance) : Option String :=
  if hasAttr inst.attrs "get_etag" then
    match inst.etagReturn with
    | some v => if v = "" then none else some ("\"" ++ stripQuotes v ++ "\"")
    | none => none
  else none

/-- `Application._get_last_modified`: `none` without a `get_last_modified`
attribute, otherwise the capability's return value (invocation abstracted as
in `getEtag`; `getLastModifiedX` below models the invocation itself). -/
def getLastModified (inst : ResourceInstance) : Option Int :=
  if hasAttr inst.attrs "get_last_modified" then inst.lastModifiedReturn else none

/-- Models `webob._serialize_date` (external library): serializes a timestamp
to its HTTP-date string, mapping `None` to `None`.  The exact textual format
is external to this repository; only being a function of the timestamp
matters to the pipeline. -/
def serializeDate : Option Int → Option String
  | none => none
  | some t => some (toString t)

/-- Membership in `request.if_match` (webob): an absent header matches every
tag, a present header matches by membership. -/
def ifMatchContains (im : Option (List String)) (t : String) : Bool :=
  match im with
  | none => true
  | some l => l.contains t

/-- `Application._handle_condition_etag`: `0` for a falsy ETag; otherwise
compare the quote-stripped tag with the If-Match and If-None-Match sets. -/
def handleConditionEtag (req : ReqCtx) (etag : Option String) : Nat :=
  match etag with
  | none => 0
  | some e =>
    if e = "" then 0
    else
      let etagMatch := stripQuotes e
      if ¬ ifMatchContains req.ifMatch etagMatch then 412
      else if req.ifNoneMatch.contains etagMatch then
        if req.method = "GET" ∨ req.method = "HEAD" then 304 else 412
      else 0

/-- Does `if request.if_modified_since and last_modified <= request.if_modified_since`
hold for timestamp `t`? -/
def imsTriggers (t : Int) : Option Int → Bool
  | none => false
  | some m => t ≤ m

/-- Does `if request.if_unmodified_since and last_modified > request.if_unmodified_since`
hold for timestamp `t`? -/
def iusTriggers (t : Int) : Option Int → Bool
  | none => false
  | some u => u < t

/-- `Application._handle_condition_last_modified`.  The source returns Python
`None` (a bare `return`) when `last_modified` is falsy, and `304`, `412` or
`0` otherwise; the `None` outcome is `Option.none` here. -/
def handleConditionLastModified (req : ReqCtx) (lm : Option Int) : Option Nat :=
  match lm with
  | none => none
  | some t =>
    if imsTriggers t req.ifModifiedSince then some 304
    else if iusTriggers t req.ifUnmodifiedSince then some 412
    else some 0

/-- Python 2 `status > 0` where `status` may be `None`: `None > 0` evaluates
to `False` in Python 2. -/
def pyGtZero : Option Nat → Bool
  | none => false
  | some s => decide (0 < s)

/-- Lines 108-110 of `_handle_conditions`: the ETag precondition result,
falling through to the Last-Modified precondition only when it is `0`. -/
def conditionsStatus (req : ReqCtx) (etag : Option String) (lm : Option Int) : Option Nat :=
  let status := handleConditionEtag req etag
  if status = 0 then handleConditionLastModified req lm else some status

/-- `Application._get_response_304`: `Response(None, ..., status=304, headers=headers)`. -/
def getResponse304 (headers : List (String × Option String)) : Resp :=
  { status := 304, headers := headers, body := .pnone, extension := none }

/-- `Application._get_response_400`: `Response({'error': body}, ..., status=400)`. -/
def getResponse400 (headers : List (String × Option String)) (body : String) : Resp :=
  { status := 400, headers := headers, body := .perr body, extension := none }

/-- `Application._get_response_404`. -/
def getResponse404 : Resp :=
  { status := 404, headers := [], body := .perr "not found", extension := none }

/-- `Application._get_response_405` as one request observes it.  The mutable
default `headers={}` dict is modelled statefully by `getResponse405Call`
below; since `'Allow'` is the only key the program ever writes into that dict
and it is overwritten on every default-argument call, the response content of
any reachable call coincides with this pure view. -/
def getResponse405 (inst : ResourceInstance) : Resp :=
  { status := 405,
    headers := [("Allow", some (getAllowedMethods inst.attrs))],
    body := .perr "Invalid method on resource", extension := none }

/-- `Application._get_response_412`. -/
def getResponse412 (headers : List (String × Option String)) : Resp :=
  { status := 412, headers := headers, body := .perr "Precondition failed",
    extension := none }

/-- `Application._get_response_501` as one request observes it (see
`getResponse405` about the default-dict state). -/
def getResponse501 (inst : ResourceInstance) : Resp :=
  { status := 501,
    headers := [("Allow", some (getAllowedMethods inst.attrs))],
    body := .perr "Unknown method", extension := none }

/-- `resfunc = getattr(self, '_get_response_' + str(status))` for a positive
precondition status.  Only `304` and `412` can arise (see `conditionsStatus`);
any other value would be an `AttributeError` in Python, marked by a sentinel
response here. -/
def dispatchStatusResponse (status : Nat) (headers : List (String × Option String)) : Resp :=
  if status = 304 then getResponse304 headers
  else if status = 412 then getResponse412 headers
  else { status := 0, headers := [], body := .perr "AttributeError", extension := none }

/-- `Application._handle_conditions`: the Content-MD5 body-integrity check
(first, before any ETag / Last-Modified computation), then computation of the
two default headers and evaluation of the preconditions.  Returns the default
header dict together with an optional short-circuit response.  `md5fn` is the
external `hashlib.md5(...).hexdigest()` digest function. -/
def handleConditions (md5fn : List Nat → String) (inst : ResourceInstance)
    (req : ReqCtx) : List (String × Option String) × Option Resp :=
  let md5Fails : Bool :=
    match req.contentMD5 with
    | some h => md5fn req.rawBody != h
    | none => false
  if md5Fails then
    ([], some (getResponse400 []
      "The Content-MD5 request header does not match the body."))
  else
    let etag := getEtag inst
    let lm := getLastModified inst
    let headers : List (String × Option String) :=
      [("ETag", etag), ("Last-Modified", serializeDate lm)]
    let status := conditionsStatus req etag lm
    if pyGtZero status then
      (headers, some (dispatchStatusResponse (status.getD 0) headers))
    else
      (headers, none)

/-- Parameter resolution of `_call_dynamic_method` for one declared name:
the request object for `request`, else the first hit among path parameters,
`request.GET` and `request.POST`, else `None`. -/
def resolveParamValue (pathParams : List (String × String)) (req : ReqCtx)
    (param : String) : ParamValue :=
  if param = "request" then .reqVal
  else
    match alookup pathParams param with
    | some v => .strVal v
    | none =>
      match alookup req.queryGET param with
      | some v => .strVal v
      | none =>
        match alookup req.formPOST param with
        | some v => .strVal v
        | none => .noneVal

/-- The rule lookup of `_validate_param`: the method's `_validations` entry
for the parameter when the attribute exists and contains the name, else the
resource class's entry, else no rules. -/
def rulesLookup (mval cval : Option (List (String × Rules))) (param : String) :
    Option Rules :=
  match mval.bind (fun vs => alookup vs param) with
  | some r => some r
  | none => cval.bind (fun vs => alookup vs param)

/-- `Application._validate_param`.  With no rules the value passes.  With
rules, a `None` or empty value raises `ValidationException`; otherwise a
truthy `'re'` rule must fully match the value (`re.search('^'+p+'$', v)`).
The `reqVal` branch models the `TypeError` Python raises on `len(request)`;
it is unreachable for rule-free `request` parameters. -/
def validateParam (mval cval : Option (List (String × Rules))) (param : String)
    (value : ParamValue) : Except String Unit :=
  match rulesLookup mval cval param with
  | none => .ok ()
  | some rules =>
    match value with
    | .noneVal => .error ("Value for " ++ param ++ " must not be empty.")
    | .reqVal => .error "TypeError"
    | .strVal v =>
      if v.length = 0 then .error ("Value for " ++ param ++ " must not be empty.")
      else
        match rules.re with
        | some p =>
          if reFullMatch p v then .ok ()
          else .error (param ++ " value " ++ v ++ " does not validate.")
        | none => .ok ()

/-- The binding loop of `_call_dynamic_method`: resolve and validate each
declared parameter in order; the first `ValidationException` aborts the loop. -/
def bindParams (mval cval : Option (List (String × Rules)))
    (pathParams : List (String × String)) (req : ReqCtx) :
    List String → Except String (List ParamValue)
  | [] => .ok []
  | p :: rest =>
    let v := resolveParamValue pathParams req p
    match validateParam mval cval p v with
    | .error e => .error e
    | .ok _ =>
      match bindParams mval cval pathParams req rest with
      | .error e => .error e
      | .ok vs => .ok (v :: vs)

/-- `Application._call_dynamic_method`: look the method up, bind and validate
its declared parameters in order, and call it with the resolved arguments.
An `Except.error` is an uncaught Python exception escaping the call. -/
def callDynamicMethod (inst : ResourceInstance) (name : String)
    (pathParams : List (String × String)) (req : ReqCtx) :
    Except String HandlerRet :=
  match alookup inst.methods name with
  | none => .error ("AttributeError: " ++ name)
  | some ms =>
    match bindParams ms.validations inst.classValidations pathParams req ms.params with
    | .error e => .error e
    | .ok vs => .ok (ms.impl vs)

/-- The recognized HTTP verbs of `_call_resource` (line 68). -/
def knownVerbs : List String :=
  ["OPTIONS", "GET", "HEAD", "POST", "PUT", "DELETE", "TRACE", "CONNECT"]

/-- The default-header merge of `_call_resource` (lines 83-85): for each
default entry, insert it only when its value is truthy and the handler did
not already supply that key. -/
def mergeDefaults (headers defaults : List (String × Option String)) :
    List (String × Option String) :=
  defaults.foldl
    (fun hs kv => if pyTruthyStr kv.2 && ! anyKey hs kv.1 then hs ++ [kv] else hs)
    headers

/-- `Application._call_resource`: resolve the method (405/501 with an Allow
header when none), evaluate the conditions (possible short-circuit), invoke
the handler, unwrap a `MiniResponse`, merge the default headers and build the
final response.  An `Except.error` is an uncaught exception escaping the
dispatcher.  The success status `200` is modelled from the spec: the external
`Response` class's implicit success status. -/
def callResource (md5fn : List Nat → String) (inst : ResourceInstance)
    (pathParams : List (String × String)) (req : ReqCtx) : Except String Resp :=
  match resolveMethod inst.attrs req.method with
  | none =>
    if knownVerbs.contains req.method then .ok (getResponse405 inst)
    else .ok (getResponse501 inst)
  | some m =>
    let conded := handleConditions md5fn inst req
    match conded.2 with
    | some r => .ok r
    | none =>
      match callDynamicMethod inst m pathParams req with
      | .error e => .error e
      | .ok ret =>
        let bodyHdrs :=
          match ret with
          | .plain b => (b, (none : Option (List (String × Option String))))
          | .mini b h => (b, h)
        let hdrs := match bodyHdrs.2 with | none => [] | some h => h
        let final := mergeDefaults hdrs conded.1
        .ok { status := 200, headers := final, body := bodyHdrs.1,
              extension := alookup pathParams "_extension" }

/-- `Application._handle_request`: the router (external) either fails to
match, giving a 404, or yields path parameters and a resource. -/
def handleRequest (md5fn : List Nat → String)
    (route : Option (List (String × String) × ResourceInstance)) (req : ReqCtx) :
    Except String Resp :=
  match route with
  | none => .ok getResponse404
  | some pr => callResource md5fn pr.2 pr.1 req

/-- A copy of a resource instance with every method body replaced, used to
state that a short-circuited request never invokes any handler. -/
def withImpls (inst : ResourceInstance)
    (f : String → List ParamValue → HandlerRet) : ResourceInstance :=
  { inst with methods := inst.methods.map (fun p =>
      (p.1, { p.2 with impl := f p.1 })) }

/-- `Application._get_response_405` with Python default-argument semantics
made explicit: the `headers={}` default dict is allocated once when the
function is defined; every call that omits the argument reuses that same
dict, and `headers['Allow'] = ...` mutates it in place.  `shared` threads the
default dict; a call passing `headers` explicitly leaves it untouched. -/
def getResponse405Call (shared : List (String × Option String))
    (inst : ResourceInstance) (headersArg : Option (List (String × Option String))) :
    List (String × Option String) × Resp :=
  match headersArg with
  | some h =>
    let h2 := dictSet h "Allow" (some (getAllowedMethods inst.attrs))
    (shared, { status := 405, headers := h2,
               body := .perr "Invalid method on resource", extension := none })
  | none =>
    let h2 := dictSet shared "Allow" (some (getAllowedMethods inst.attrs))
    (h2, { status := 405, headers := h2,
           body := .perr "Invalid method on resource", extension := none })

/-- `Application._get_response_501` with its own shared default dict, mutated
exactly like the one of `getResponse405Call`. -/
def getResponse501Call (shared : List (String × Option String))
    (inst : ResourceInstance) (headersArg : Option (List (String × Option String))) :
    List (String × Option String) × Resp :=
  match headersArg with
  | some h =>
    let h2 := dictSet h "Allow" (some (getAllowedMethods inst.attrs))
    (shared, { status := 501, headers := h2,
               body := .perr "Unknown method", extension := none })
  | none =>
    let h2 := dictSet shared "Allow" (some (getAllowedMethods inst.attrs))
    (h2, { status := 501, headers := h2,
           body := .perr "Unknown method", extension := none })

/-! A refined model of the capability-invocation path, for the
error-propagation analysis.  In the source, `_get_etag` and
`_get_last_modified` invoke the capability through `_call_dynamic_method`
(lines 169-181), so parameter binding and validation run — and can raise a
`ValidationException` — inside `_handle_conditions` itself, before any
handler runs.  The definitions below embed that path without abstracting the
capability call to its returned value; binding and validation are the same
`bindParams` used for the handler path. -/

/-- A `get_etag` / `get_last_modified` capability as `_call_dynamic_method`
sees it: declared parameter names (`self` removed), the method's
`_validations` attribute (`none` when absent), and its body, abstracted to a
function from the bound arguments to its contract-typed return value. -/
structure CapSpec (α : Type) where
  params : List String
  validations : Option (List (String × Rules))
  impl : List ParamValue → α

/-- A resource instance whose optional capabilities carry their full method
shape.  The `getattr` / `hasattr` lookup of `get_etag` and
`get_last_modified` is modelled by the presence of the dedicated option
fields; verb handlers and class-level validations are as in
`ResourceInstance`. -/
structure ResourceInstanceX where
  attrs : List (String × Bool)
  methods : List (String × MethodSpec)
  classValidations : Option (List (String × Rules))
  etagCap : Option (CapSpec (Option String))
  lastModifiedCap : Option (CapSpec (Option Int))

/-- `_call_dynamic_method` applied to a capability: bind and validate the
declared parameters (the loop of lines 193-205, shared with the handler path
through `bindParams`), then call the body.  An `Except.error` is an uncaught
`ValidationException` escaping the capability invocation. -/
def callCap {α : Type} (inst : ResourceInstanceX) (cap : CapSpec α)
    (pathParams : List (String × String)) (req : ReqCtx) : Except String α :=
  match bindParams cap.validations inst.classValidations pathParams req cap.params with
  | .error e => .error e
  | .ok vs => .ok (cap.impl vs)

/-- `_call_dynamic_method` applied to a verb handler of a refined instance
(the same body as `callDynamicMethod`). -/
def callDynamicMethodX (inst : ResourceInstanceX) (name : String)
    (pathParams : List (String × String)) (req : ReqCtx) :
    Except String HandlerRet :=
  match alookup inst.methods name with
  | none => .error ("AttributeError: " ++ name)
  | some ms =>
    match bindParams ms.validations inst.classValidations pathParams req ms.params with
    | .error e => .error e
    | .ok vs => .ok (ms.impl vs)

/-- `_get_etag` with the capability invoked through the binder: the
invocation may raise; a truthy result is wrapped in double quotes after
removing embedded quotes exactly as in `getEtag`; a falsy result or an
absent capability yields no ETag. -/
def getEtagX (inst : ResourceInstanceX) (pathParams : List (String × String))
    (req : ReqCtx) : Except String (Option String) :=
  match inst.etagCap with
  | none => .ok none
  | some cap =>
    match callCap inst cap pathParams req with
    | .error e => .error e
    | .ok retval =>
      match retval with
      | some v =>
        if v = "" then .ok none
        else .ok (some ("\"" ++ stripQuotes v ++ "\""))
      | none => .ok none

/-- `_get_last_modified` with the capability invoked through the binder. -/
def getLastModifiedX (inst : ResourceInstanceX)
    (pathParams : List (String × String)) (req : ReqCtx) :
    Except String (Option Int) :=
  match inst.lastModifiedCap with
  | none => .ok none
  | some cap => callCap inst cap pathParams req

/-- `_handle_conditions` with the capability invocations un-abstracted: the
Content-MD5 check still runs first (before any capability is touched), then
`_get_etag` and `_get_last_modified` run in source order, and an exception
raised by either propagates out of the condition step. -/
def handleConditionsX (md5fn : List Nat → String) (inst : ResourceInstanceX)
    (pathParams : List (String × String)) (req : ReqCtx) :
    Except String (List (String × Option String) × Option Resp) :=
  let md5Fails : Bool :=
    match req.contentMD5 with
    | some h => md5fn req.rawBody != h
    | none => false
  if md5Fails then
    .ok ([], some (getResponse400 []
      "The Content-MD5 request header does not match the body."))
  else
    match getEtagX inst pathParams req with
    | .error e => .error e
    | .ok etag =>
      match getLastModifiedX inst pathParams req with
      | .error e => .error e
      | .ok lm =>
        let headers : List (String × Option String) :=
          [("ETag", etag), ("Last-Modified", serializeDate lm)]
        let status := conditionsStatus req etag lm
        if pyGtZero status then
          .ok (headers, some (dispatchStatusResponse (status.getD 0) headers))
        else
          .ok (headers, none)

/-- `_call_resource` over the refined instance model: identical in structure
to `callResource` (the 405/501 records are the pure views of the
status-response helpers), except that the condition step itself may raise an
exception, which propagates. -/
def callResourceX (md5fn : List Nat → String) (inst : ResourceInstanceX)
    (pathParams : List (String × String)) (req : ReqCtx) : Except String Resp :=
  match resolveMethod inst.attrs req.method with
  | none =>
    if knownVerbs.contains req.method then
      .ok { status := 405,
            headers := [("Allow", some (getAllowedMethods inst.attrs))],
            body := .perr "Invalid method on resource", extension := none }
    else
      .ok { status := 501,
            headers := [("Allow", some (getAllowedMethods inst.attrs))],
            body := .perr "Unknown method", extension := none }
  | some m =>
    match handleConditionsX md5fn inst pathParams req with
    | .error e => .error e
    | .ok conded =>
      match conded.2 with
      | some r => .ok r
      | none =>
        match callDynamicMethodX inst m pathParams req with
        | .error e => .error e
        | .ok ret =>
          let bodyHdrs :=
            match ret with
            | .plain b => (b, (none : Option (List (String × Option String))))
            | .mini b h => (b, h)
          let hdrs := match bodyHdrs.2 with | none => [] | some h => h
          let final := mergeDefaults hdrs conded.1
          .ok { status := 200, headers := final, body := bodyHdrs.1,
                extension := alookup pathParams "_extension" }

/-! Helper lemmas about the dict model. -/

theorem alookup_append {α : Type} (h l : List (String × α)) (k : String) :
    alookup (h ++ l) k =
      match alookup h k with
      | some v => some v
      | none => alookup l k := by
  induction h with
  | nil => simp [alookup]
  | cons kv rest ih =>
    by_cases hk : kv.1 = k
    · simp [alookup, hk]
    · simpa [alookup, hk] using ih

theorem anyKey_false_iff {α : Type} (l : List (String × α)) (k : String) :
    anyKey l k = false ↔ alookup l k = none := by
  induction l with
  | nil => simp [anyKey, alookup]
  | cons kv rest ih =>
    by_cases hk : kv.1 = k
    · simp [anyKey, alookup, hk]
    · simpa [anyKey, alookup, hk] using ih

theorem anyKey_append {α : Type} (h l : List (String × α)) (k : String) :
    anyKey (h ++ l) k = (anyKey h k || anyKey l k) := by
  simp [anyKey, List.any_append]

theorem alookup_append_of_anyKey {α : Type} (h l : List (String × α)) (k : String)
    (hk : anyKey h k = true) : alookup (h ++ l) k = alookup h k := by
  rw [alookup_append]
  rcases ha : alookup h k with _ | v
  · rw [← anyKey_false_iff] at ha
    rw [ha] at hk
    cases hk
  · rfl

theorem alookup_append_of_not {α : Type} (h l : List (String × α)) (k : String)
    (hk : anyKey h k = false) : alookup (h ++ l) k = alookup l k := by
  rw [alookup_append, (anyKey_false_iff h k).mp hk]

theorem mem_dictSet_of_ne {α : Type} (d : List (String × α)) (k k' : String)
    (v : α) (v' : α) (hne : k ≠ k') (hm : (k, v) ∈ d) :
    (k, v) ∈ dictSet d k' v' := by
  unfold dictSet
  by_cases ha : anyKey d k'
  · rw [if_pos ha]
    have : ((k, v) : String × α) =
        (fun p => if p.1 == k' then (k', v') else p) (k, v) := by
      simp [hne]
    rw [this]
    exact List.mem_map_of_mem _ hm
  · rw [if_neg ha]
    exact List.mem_append_left _ hm

/-! Theorems about the conditional evaluator. -/

/-- C1: for a request whose computed ETag is present (a truthy string), the
ETag precondition compares the quote-stripped tag: when it is missing from a
meaningful (present) If-Match set the decision is 412; otherwise, when it is
in the If-None-Match set, the decision is 304 for GET and HEAD and 412 for
any other verb; otherwise the decision is to proceed (status 0). -/
theorem etag_precondition_decision (req : ReqCtx) (e : String) (he : e ≠ "") :
    (∀ l, req.ifMatch = some l → stripQuotes e ∉ l →
      handleConditionEtag req (some e) = 412)
    ∧ (ifMatchContains req.ifMatch (stripQuotes e) = true →
      stripQuotes e ∈ req.ifNoneMatch →
        ((req.method = "GET" ∨ req.method = "HEAD") →
          handleConditionEtag req (some e) = 304)
        ∧ (req.method ≠ "GET" → req.method ≠ "HEAD" →
          handleConditionEtag req (some e) = 412))
    ∧ (ifMatchContains req.ifMatch (stripQuotes e) = true →
      stripQuotes e ∉ req.ifNoneMatch →
        handleConditionEtag req (some e) = 0) := by
  refine ⟨?_, ?_, ?_⟩
  · intro l hl hn
    have hc : ifMatchContains req.ifMatch (stripQuotes e) = false := by
      rw [hl]
      simpa [ifMatchContains] using hn
    simp [handleConditionEtag, he, hc]
  · intro hc hn
    constructor
    · intro hgh
      simp [handleConditionEtag, he, hc, hn, hgh]
    · intro hg hh
      have : ¬ (req.method = "GET" ∨ req.method = "HEAD") := by
        rintro (h | h) <;> [exact hg h; exact hh h]
      simp [handleConditionEtag, he, hc, hn, this]
  · intro hc hn
    simp [handleConditionEtag, he, hc, hn]

/-- C2: the Last-Modified precondition is consulted only when the ETag
precondition returned 0; an absent timestamp lets the request proceed; a
timestamp ≤ a present If-Modified-Since decides 304; otherwise a timestamp
greater than a present If-Unmodified-Since decides 412; otherwise the
request proceeds. -/
theorem last_modified_precondition_decision (req : ReqCtx) (etag : Option String)
    (lm : Option Int) :
    (handleConditionEtag req etag ≠ 0 →
      conditionsStatus req etag lm = some (handleConditionEtag req etag))
    ∧ (handleConditionEtag req etag = 0 → lm = none →
      pyGtZero (conditionsStatus req etag lm) = false)
    ∧ (∀ t m, handleConditionEtag req etag = 0 → lm = some t →
      req.ifModifiedSince = some m → t ≤ m →
      conditionsStatus req etag lm = some 304)
    ∧ (∀ t u, handleConditionEtag req etag = 0 → lm = some t →
      (∀ m, req.ifModifiedSince = some m → m < t) →
      req.ifUnmodifiedSince = some u → u < t →
      conditionsStatus req etag lm = some 412)
    ∧ (∀ t, handleConditionEtag req etag = 0 → lm = some t →
      (∀ m, req.ifModifiedSince = some m → m < t) →
      (∀ u, req.ifUnmodifiedSince = some u → t ≤ u) →
      pyGtZero (conditionsStatus req etag lm) = false) := by
  refine ⟨?_, ?_, ?_, ?_, ?_⟩
  · intro h
    simp [conditionsStatus, h]
  · intro h hlm
    simp [conditionsStatus, h, hlm, handleConditionLastModified, pyGtZero]
  · intro t m h hlm hims hle
    have : imsTriggers t req.ifModifiedSince = true := by
      rw [hims]; simpa [imsTriggers] using hle
    simp [conditionsStatus, h, hlm, handleConditionLastModified, this]
  · intro t u h hlm hims hius hlt
    have h1 : imsTriggers t req.ifModifiedSince = false := by
      rcases hm : req.ifModifiedSince with _ | m
      · rfl
      · have := hims m hm
        simp [imsTriggers]
        omega
    have h2 : iusTriggers t req.ifUnmodifiedSince = true := by
      rw [hius]; simpa [iusTriggers] using hlt
    simp [conditionsStatus, h, hlm, handleConditionLastModified, h1, h2]
  · intro t h hlm hims hius
    have h1 : imsTriggers t req.ifModifiedSince = false := by
      rcases hm : req.ifModifiedSince with _ | m
      · rfl
      · have := hims m hm
        simp [imsTriggers]
        omega
    have h2 : iusTriggers t req.ifUnmodifiedSince = false := by
      rcases hu : req.ifUnmodifiedSince with _ | u
      · rfl
      · have := hius u hu
        simp [iusTriggers]
        omega
    simp [conditionsStatus, h, hlm, handleConditionLastModified, h1, h2, pyGtZero]

/-- C3: when method resolution finds no handler for the request verb, the
response status is 405 for a recognized HTTP verb and 501 otherwise, and in
both cases the Allow header is exactly the comma-space join of the verb-shaped
callable attributes of the instance. -/
theorem method_not_allowed_response (md5fn : List Nat → String)
    (inst : ResourceInstance) (pp : List (String × String)) (req : ReqCtx)
    (h : resolveMethod inst.attrs req.method = none) :
    ∃ r, callResource md5fn inst pp req = .ok r
      ∧ r.status = (if knownVerbs.contains req.method then 405 else 501)
      ∧ alookup r.headers "Allow" = some (some (String.intercalate ", "
          ((inst.attrs.filter (fun p => p.1.toUpper == p.1 && p.2)).map Prod.fst))) := by
  by_cases hv : req.method ∈ knownVerbs
  · refine ⟨getResponse405 inst, ?_, ?_, ?_⟩
    · simp [callResource, h, hv]
    · simp [getResponse405, hv]
    · simp [getResponse405, alookup, getAllowedMethods]
  · refine ⟨getResponse501 inst, ?_, ?_, ?_⟩
    · simp [callResource, h, hv]
    · simp [getResponse501, hv]
    · simp [getResponse501, alookup, getAllowedMethods]

/-- C4: a present ETag capability yielding a non-empty string `v` produces
the header value `"` ++ (`v` with every embedded `"` removed) ++ `"`; an
absent capability, a `None` result or an empty result leaves the ETag
absent. -/
theorem etag_header_computation (inst : ResourceInstance) :
    (∀ v, hasAttr inst.attrs "get_etag" = true → inst.etagReturn = some v →
      v ≠ "" →
      getEtag inst =
        some ("\"" ++ String.mk (v.data.filter (fun c => c ≠ '"')) ++ "\""))
    ∧ (hasAttr inst.attrs "get_etag" = false → getEtag inst = none)
    ∧ (inst.etagReturn = none → getEtag inst = none)
    ∧ (inst.etagReturn = some "" → getEtag inst = none) := by
  refine ⟨?_, ?_, ?_, ?_⟩
  · intro v ha hr hv
    simp [getEtag, ha, hr, hv, stripQuotes]
  · intro ha
    simp [getEtag, ha]
  · intro hr
    simp [getEtag, hr]
  · intro hr
    simp [getEtag, hr]

/-- C5: for a parameter with a rule set holding a pattern and a non-empty
resolved string value, validation succeeds exactly when the anchored pattern
matches the whole value, and a failed match raises the ValidationException
with the does-not-validate message (hence before the handler is invoked). -/
theorem pattern_validation_full_match (mval cval : Option (List (String × Rules)))
    (param : String) (p : Regex) (v : String)
    (hr : rulesLookup mval cval param = some { re := some p })
    (hv : v ≠ "") :
    (validateParam mval cval param (.strVal v) = .ok () ↔ reFullMatch p v = true)
    ∧ (reFullMatch p v = false →
      validateParam mval cval param (.strVal v) =
        .error (param ++ " value " ++ v ++ " does not validate.")) := by
  have hlen : ¬ v.length = 0 := by
    intro h0
    apply hv
    cases v with
    | mk d =>
      have hd : d = [] := List.length_eq_zero.mp h0
      rw [hd]
  constructor
  · constructor
    · intro hok
      by_contra hm
      simp [validateParam, hr, hlen, hm] at hok
    · intro hm
      simp [validateParam, hr, hlen, hm]
  · intro hm
    simp [validateParam, hr, hlen, hm]

theorem bindParams_ok (mval cval : Option (List (String × Rules)))
    (pp : List (String × String)) (req : ReqCtx) (params : List String)
    (hok : ∀ p ∈ params,
      validateParam mval cval p (resolveParamValue pp req p) = .ok ()) :
    bindParams mval cval pp req params =
      .ok (params.map (resolveParamValue pp req)) := by
  induction params with
  | nil => rfl
  | cons p rest ih =>
    have hp := hok p (List.mem_cons_self p rest)
    have hrest := ih (fun q hq => hok q (List.mem_cons_of_mem p hq))
    simp [bindParams, hp, hrest]

/-- C6: each declared handler parameter is bound with the precedence request
object / path parameter / query parameter / form parameter / None, and when
every bound value validates the handler is called with the resolved values in
declared order. -/
theorem param_binding_precedence_and_order (inst : ResourceInstance)
    (name : String) (ms : MethodSpec) (pp : List (String × String)) (req : ReqCtx)
    (hms : alookup inst.methods name = some ms)
    (hok : ∀ p ∈ ms.params,
      validateParam ms.validations inst.classValidations p
        (resolveParamValue pp req p) = .ok ()) :
    callDynamicMethod inst name pp req =
      .ok (ms.impl (ms.params.map (resolveParamValue pp req)))
    ∧ resolveParamValue pp req "request" = .reqVal
    ∧ (∀ p v, p ≠ "request" → alookup pp p = some v →
      resolveParamValue pp req p = .strVal v)
    ∧ (∀ p v, p ≠ "request" → alookup pp p = none →
      alookup req.queryGET p = some v → resolveParamValue pp req p = .strVal v)
    ∧ (∀ p v, p ≠ "request" → alookup pp p = none →
      alookup req.queryGET p = none → alookup req.formPOST p = some v →
      resolveParamValue pp req p = .strVal v)
    ∧ (∀ p, p ≠ "request" → alookup pp p = none →
      alookup req.queryGET p = none → alookup req.formPOST p = none →
      resolveParamValue pp req p = .noneVal) := by
  refine ⟨?_, ?_, ?_, ?_, ?_, ?_⟩
  · simp [callDynamicMethod, hms, bindParams_ok _ _ _ _ _ hok]
  · simp [resolveParamValue]
  · intro p v hp h1
    simp [resolveParamValue, hp, h1]
  · intro p v hp h1 h2
    simp [resolveParamValue, hp, h1, h2]
  · intro p v hp h1 h2 h3
    simp [resolveParamValue, hp, h1, h2, h3]
  · intro p hp h1 h2 h3
    simp [resolveParamValue, hp, h1, h2, h3]

/-! Lemmas about the default-header merge. -/

theorem mergeDefaults_lookup_of_mem (d h : List (String × Option String))
    (k : String) (hk : anyKey h k = true) :
    alookup (mergeDefaults h d) k = alookup h k ∧
      anyKey (mergeDefaults h d) k = true := by
  induction d generalizing h with
  | nil => exact ⟨rfl, hk⟩
  | cons kv rest ih =>
    rw [mergeDefaults, List.foldl_cons, ← mergeDefaults]
    by_cases hc : (pyTruthyStr kv.2 && ! anyKey h kv.1) = true
    · rw [if_pos hc]
      have hk2 : anyKey (h ++ [kv]) k = true := by
        rw [anyKey_append, hk, Bool.true_or]
      have := ih (h ++ [kv]) hk2
      rw [this.1, alookup_append_of_anyKey _ _ _ hk] at *
      exact ⟨this.1, this.2⟩
    · rw [if_neg hc]
      exact ih h hk

theorem mergeDefaults_lookup_of_default (d : List (String × Option String))
    (h : List (String × Option String)) (k : String) (w : Option String)
    (hk : anyKey h k = false) (hd : alookup d k = some w)
    (hw : pyTruthyStr w = true) :
    alookup (mergeDefaults h d) k = some w := by
  induction d generalizing h with
  | nil => cases hd
  | cons kv rest ih =>
    rw [mergeDefaults, List.foldl_cons, ← mergeDefaults]
    by_cases hkk : kv.1 = k
    · have hwv : kv.2 = w := by
        have : alookup (kv :: rest) k = some kv.2 := by
          simp [alookup, hkk]
        rw [this] at hd
        exact Option.some.inj hd
      have hc : (pyTruthyStr kv.2 && ! anyKey h kv.1) = true := by
        rw [hwv, hw, hkk, hk]
        rfl
      rw [if_pos hc]
      have hk2 : anyKey (h ++ [kv]) k = true := by
        rw [anyKey_append, hk]
        simp [anyKey, hkk]
      have hl2 : alookup (h ++ [kv]) k = some w := by
        rw [alookup_append_of_not _ _ _ hk]
        simp [alookup, hkk, hwv]
      rw [(mergeDefaults_lookup_of_mem rest _ k hk2).1, hl2]
    · have hd2 : alookup rest k = some w := by
        simpa [alookup, hkk] using hd
      by_cases hc : (pyTruthyStr kv.2 && ! anyKey h kv.1) = true
      · rw [if_pos hc]
        have hk2 : anyKey (h ++ [kv]) k = false := by
          rw [anyKey_append, hk]
          simp [anyKey, hkk]
        exact ih _ hk2 hd2
      · rw [if_neg hc]
        exact ih _ hk hd2

theorem handleConditions_fst_of_proceed (md5fn : List Nat → String)
    (inst : ResourceInstance) (req : ReqCtx)
    (h : (handleConditions md5fn inst req).2 = none) :
    (handleConditions md5fn inst req).1 =
      [("ETag", getEtag inst),
       ("Last-Modified", serializeDate (getLastModified inst))] := by
  by_cases hmd5 : (match req.contentMD5 with
    | some hh => md5fn req.rawBody != hh
    | none => false) = true
  · exfalso
    rw [handleConditions] at h
    simp only [hmd5, if_pos] at h
    cases h
  · rw [handleConditions]
    simp only [hmd5, Bool.false_eq_true, if_neg, if_false]
    by_cases hst : pyGtZero (conditionsStatus req (getEtag inst)
        (getLastModified inst)) = true
    · exfalso
      rw [handleConditions] at h
      simp only [hmd5, Bool.false_eq_true, if_neg, if_false, hst, if_pos] at h
      cases h
    · simp only [hst, Bool.false_eq_true, if_neg, if_false]

/-- C7: on a successful handler invocation returning explicit headers, the
final response headers are the handler headers merged with the default
(ETag, Last-Modified) headers: the handler's value wins on a key collision,
and every default header with a truthy computed value that the handler did
not supply is present in the final response. -/
theorem response_header_merge (md5fn : List Nat → String)
    (inst : ResourceInstance) (pp : List (String × String)) (req : ReqCtx)
    (m : String) (b : BodyVal) (hdrs : List (String × Option String))
    (hm : resolveMethod inst.attrs req.method = some m)
    (hcond : (handleConditions md5fn inst req).2 = none)
    (hcall : callDynamicMethod inst m pp req = .ok (.mini b (some hdrs))) :
    ∃ r, callResource md5fn inst pp req = .ok r
      ∧ r.headers = mergeDefaults hdrs (handleConditions md5fn inst req).1
      ∧ (∀ k, anyKey hdrs k = true → alookup r.headers k = alookup hdrs k)
      ∧ (∀ k v, alookup (handleConditions md5fn inst req).1 k = some (some v) →
        v ≠ "" → anyKey hdrs k = false → alookup r.headers k = some (some v)) := by
  refine ⟨{ status := 200,
            headers := mergeDefaults hdrs (handleConditions md5fn inst req).1,
            body := b, extension := alookup pp "_extension" }, ?_, rfl, ?_, ?_⟩
  · rw [callResource, hm]
    rcases hc : handleConditions md5fn inst req with ⟨dh, resp⟩
    rw [hc] at hcond
    simp only at hcond
    rw [hcond] at hc ⊢
    simp only [hcall, hc]
  · intro k hk
    exact (mergeDefaults_lookup_of_mem _ _ _ hk).1
  · intro k v hd hv hk
    exact mergeDefaults_lookup_of_default _ _ _ _ hk hd (by simpa [pyTruthyStr])

/-! Concrete data for the error-propagation analysis: a resource with a GET
handler declaring one validated parameter `id`, and a GET request supplying
no value for it. -/

/-- A digest function stand-in for runs whose Content-MD5 path is idle. -/
def md5c : List Nat → String := fun _ => ""

def msC8 : MethodSpec :=
  { params := ["id"], validations := some [("id", { re := none })],
    impl := fun _ => .plain (.pstr "x") }

def instC8 : ResourceInstance :=
  { attrs := [("GET", true)], methods := [("GET", msC8)],
    classValidations := none, etagReturn := none, lastModifiedReturn := none }

def reqC8 : ReqCtx :=
  { method := "GET", ifMatch := none, ifNoneMatch := [],
    ifModifiedSince := none, ifUnmodifiedSince := none, queryGET := [],
    formPOST := [], contentMD5 := none, rawBody := [] }

/-- The resource of `instC8` in the refined model (no optional capabilities,
so the condition step cannot raise here). -/
def instC8x : ResourceInstanceX :=
  { attrs := [("GET", true)], methods := [("GET", msC8)],
    classValidations := none, etagCap := none, lastModifiedCap := none }

/-- C8 counterexample: a request reaching parameter binding whose validation
fails does NOT yield a well-formed error response — `_call_resource` has no
handler for the `ValidationException`, so the dispatcher's outcome is an
uncaught exception, refuting the claim that every failure condition inside
the pipeline is converted locally to a response. -/
theorem validation_error_escapes_dispatcher :
    (∀ r : Resp, callResourceX md5c instC8x [] reqC8 ≠ .ok r)
    ∧ callResourceX md5c instC8x [] reqC8 =
      .error "Value for id must not be empty." := by
  have h2 : callResourceX md5c instC8x [] reqC8 =
      .error "Value for id must not be empty." := rfl
  refine ⟨fun r hr => ?_, h2⟩
  rw [h2] at hr
  cases hr

/-- C8 amended: the dispatch pipeline converts the terminal conditions it
detects itself (no handler, Content-MD5 mismatch, failed precondition) into
responses, but an exception raised by the parameter-binding machinery — in
particular a ValidationException — propagates past the dispatcher unhandled,
whether it is raised while invoking the `get_etag` / `get_last_modified`
capabilities inside the condition step or while binding the handler's own
parameters: the dispatcher fails to produce a response exactly when the
method resolves and either the condition step raises, or the conditions let
the request proceed and the handler's dynamic call raises. -/
theorem error_handling_amended (md5fn : List Nat → String)
    (inst : ResourceInstanceX) (pp : List (String × String)) (req : ReqCtx)
    (e : String) :
    callResourceX md5fn inst pp req = .error e ↔
      ∃ m, resolveMethod inst.attrs req.method = some m
        ∧ (handleConditionsX md5fn inst pp req = .error e
          ∨ ∃ dh, handleConditionsX md5fn inst pp req = .ok (dh, none)
            ∧ callDynamicMethodX inst m pp req = .error e) := by
  constructor
  · intro h
    rcases hr : resolveMethod inst.attrs req.method with _ | m
    · rw [callResourceX, hr] at h
      by_cases hv : req.method ∈ knownVerbs <;> simp [hv] at h
    · rcases hc : handleConditionsX md5fn inst pp req with e2 | conded
      · have hval : callResourceX md5fn inst pp req = .error e2 := by
          rw [callResourceX, hr, hc]
        rw [hval] at h
        simp only [Except.error.injEq] at h
        exact ⟨m, rfl, Or.inl (by rw [h])⟩
      · rcases conded with ⟨dh, o⟩
        rcases o with _ | r
        · rcases hcall : callDynamicMethodX inst m pp req with e2 | ret
          · have hval : callResourceX md5fn inst pp req = .error e2 := by
              rw [callResourceX, hr, hc]
              simp [hcall]
            rw [hval] at h
            simp only [Except.error.injEq] at h
            exact ⟨m, rfl, Or.inr ⟨dh, rfl, by rw [hcall, h]⟩⟩
          · exfalso
            rw [callResourceX, hr, hc] at h
            simp [hcall] at h
        · exfalso
          rw [callResourceX, hr, hc] at h
          simp at h
  · rintro ⟨m, hm, hdisj⟩
    rcases hdisj with hce | ⟨dh, hcok, hcall⟩
    · rw [callResourceX, hm, hce]
    · rw [callResourceX, hm, hcok]
      simp [hcall]

/-- C9: a request carrying a Content-MD5 header whose value disagrees with
the digest of the raw body short-circuits inside `_handle_conditions` before
the ETag / Last-Modified computation (the returned default-header dict is
empty), with status 400 and the exact mismatch message, and no handler body
influences the outcome. -/
theorem content_md5_mismatch_short_circuit (md5fn : List Nat → String)
    (inst : ResourceInstance) (pp : List (String × String)) (req : ReqCtx)
    (h : String) (hh : req.contentMD5 = some h) (hne : md5fn req.rawBody ≠ h)
    (hm : resolveMethod inst.attrs req.method ≠ none) :
    handleConditions md5fn inst req =
      ([], some (getResponse400 []
        "The Content-MD5 request header does not match the body."))
    ∧ callResource md5fn inst pp req =
      .ok (getResponse400 []
        "The Content-MD5 request header does not match the body.")
    ∧ (∀ f, callResource md5fn (withImpls inst f) pp req =
      .ok (getResponse400 []
        "The Content-MD5 request header does not match the body.")) := by
  have hcond : handleConditions md5fn inst req =
      ([], some (getResponse400 []
        "The Content-MD5 request header does not match the body.")) := by
    rw [handleConditions]
    simp [hh, hne]
  have hcall : ∀ inst2 : ResourceInstance,
      resolveMethod inst2.attrs req.method ≠ none →
      handleConditions md5fn inst2 req =
        ([], some (getResponse400 []
          "The Content-MD5 request header does not match the body.")) →
      callResource md5fn inst2 pp req =
        .ok (getResponse400 []
          "The Content-MD5 request header does not match the body.") := by
    intro inst2 hm2 hcond2
    rcases Option.ne_none_iff_exists'.mp hm2 with ⟨m, hm3⟩
    rw [callResource, hm3, hcond2]
  refine ⟨hcond, hcall inst hm hcond, ?_⟩
  intro f
  have hattrs : (withImpls inst f).attrs = inst.attrs := rfl
  have hm2 : resolveMethod (withImpls inst f).attrs req.method ≠ none := by
    rw [hattrs]
    exact hm
  have hcond2 : handleConditions md5fn (withImpls inst f) req =
      ([], some (getResponse400 []
        "The Content-MD5 request header does not match the body.")) := by
    rw [handleConditions]
    simp [hh, hne]
  exact hcall (withImpls inst f) hm2 hcond2

/-- C10: the default header containers of `_get_response_405` and
`_get_response_501` are shared across calls: a call without an explicit
headers argument writes its Allow entry into the single shared dict, the
response aliases that dict, the next default-argument call starts from the
mutated dict, and any non-Allow entry present in the shared dict is still
visible in the response of a later request; only an explicitly passed
container leaves the shared dict untouched. -/
theorem default_header_container_shared
    (sh405 sh501 : List (String × Option String))
    (inst inst2 : ResourceInstance) (k : String) (v : Option String) :
    ((getResponse405Call sh405 inst none).1 =
      dictSet sh405 "Allow" (some (getAllowedMethods inst.attrs)))
    ∧ ((getResponse405Call sh405 inst none).2.headers =
      (getResponse405Call sh405 inst none).1)
    ∧ ((getResponse405Call (getResponse405Call sh405 inst none).1 inst2 none).2.headers =
      dictSet (dictSet sh405 "Allow" (some (getAllowedMethods inst.attrs)))
        "Allow" (some (getAllowedMethods inst2.attrs)))
    ∧ (k ≠ "Allow" → (k, v) ∈ sh405 →
      (k, v) ∈ (getResponse405Call (getResponse405Call sh405 inst none).1
        inst2 none).2.headers)
    ∧ (∀ h, (getResponse405Call sh405 inst (some h)).1 = sh405)
    ∧ ((getResponse501Call sh501 inst none).1 =
      dictSet sh501 "Allow" (some (getAllowedMethods inst.attrs)))
    ∧ (k ≠ "Allow" → (k, v) ∈ sh501 →
      (k, v) ∈ (getResponse501Call (getResponse501Call sh501 inst none).1
        inst2 none).2.headers)
    ∧ (∀ h, (getResponse501Call sh501 inst (some h)).1 = sh501) := by
  refine ⟨rfl, rfl, rfl, ?_, fun h => rfl, rfl, ?_, fun h => rfl⟩
  · intro hk hm
    exact mem_dictSet_of_ne _ _ _ _ _ hk (mem_dictSet_of_ne _ _ _ _ _ hk hm)
  · intro hk hm
    exact mem_dictSet_of_ne _ _ _ _ _ hk (mem_dictSet_of_ne _ _ _ _ _ hk hm)

/-! Concrete instantiations of the theorems above. -/

deriving instance DecidableEq for Except

/-- A request with no conditional headers, the base of the concrete runs. -/
def reqBase : ReqCtx :=
  { method := "GET", ifMatch := none, ifNoneMatch := [], ifModifiedSince := none,
    ifUnmodifiedSince := none, queryGET := [], formPOST := [], contentMD5 := none,
    rawBody := [] }

theorem etag_precondition_decision_witness :
    handleConditionEtag { reqBase with method := "PUT", ifMatch := some ["x"] }
      (some "\"abc\"") = 412 :=
  (etag_precondition_decision { reqBase with method := "PUT", ifMatch := some ["x"] }
    "\"abc\"" (by decide)).1 ["x"] rfl (by decide)

theorem last_modified_precondition_decision_witness :
    conditionsStatus { reqBase with ifModifiedSince := some 5 } none (some 3) =
      some 304 :=
  (last_modified_precondition_decision { reqBase with ifModifiedSince := some 5 }
    none (some 3)).2.2.1 3 5 rfl rfl rfl (by decide)

def reqC3 : ReqCtx := { reqBase with method := "POST" }

theorem method_not_allowed_response_witness :
    ∃ r, callResource md5c instC8 [] reqC3 = .ok r
      ∧ r.status = (if knownVerbs.contains reqC3.method then 405 else 501)
      ∧ alookup r.headers "Allow" = some (some (String.intercalate ", "
          ((instC8.attrs.filter (fun p => p.1.toUpper == p.1 && p.2)).map Prod.fst))) :=
  method_not_allowed_response md5c instC8 [] reqC3 (by decide)

def instC4 : ResourceInstance :=
  { attrs := [("GET", true), ("get_etag", true)], methods := [],
    classValidations := none, etagReturn := some "a\"bc", lastModifiedReturn := none }

theorem etag_header_computation_witness :
    getEtag instC4 = some "\"abc\"" :=
  ((etag_header_computation instC4).1 "a\"bc" (by decide) rfl (by decide)).trans
    (by decide)

theorem pattern_validation_full_match_witness :
    (validateParam (some [("id", { re := some digitsPlus })]) none "id"
      (.strVal "12a") = .error "id value 12a does not validate.")
    ∧ (validateParam (some [("id", { re := some digitsPlus })]) none "id"
      (.strVal "12") = .ok ()) := by
  constructor
  · exact ((pattern_validation_full_match (some [("id", { re := some digitsPlus })])
      none "id" digitsPlus "12a" (by decide) (by decide)).2 (by decide)).trans
      (by decide)
  · exact (pattern_validation_full_match (some [("id", { re := some digitsPlus })])
      none "id" digitsPlus "12" (by decide) (by decide)).1.mpr (by decide)

def msC6 : MethodSpec :=
  { params := ["request", "id", "q"], validations := none,
    impl := fun vs => .plain (.ptag vs.length) }

def instC6 : ResourceInstance :=
  { attrs := [("GET", true)], methods := [("GET", msC6)], classValidations := none,
    etagReturn := none, lastModifiedReturn := none }

def reqC6 : ReqCtx := { reqBase with queryGET := [("q", "7")] }

theorem param_binding_precedence_and_order_witness :
    callDynamicMethod instC6 "GET" [("id", "5")] reqC6 =
      .ok (.plain (.ptag 3)) :=
  (param_binding_precedence_and_order instC6 "GET" msC6 [("id", "5")] reqC6 rfl
    (by decide)).1

def msC7 : MethodSpec :=
  { params := [], validations := none,
    impl := fun _ => .mini (.pstr "body") (some [("ETag", some "\"custom\"")]) }

def instC7 : ResourceInstance :=
  { attrs := [("GET", true), ("get_etag", true), ("get_last_modified", true)],
    methods := [("GET", msC7)], classValidations := none,
    etagReturn := some "abc", lastModifiedReturn := some 7 }

theorem response_header_merge_witness :
    ∃ r, callResource md5c instC7 [] reqBase = .ok r
      ∧ r.headers = mergeDefaults [("ETag", some "\"custom\"")]
          (handleConditions md5c instC7 reqBase).1
      ∧ (∀ k, anyKey [("ETag", some "\"custom\"")] k = true →
        alookup r.headers k = alookup [("ETag", some "\"custom\"")] k)
      ∧ (∀ k v, alookup (handleConditions md5c instC7 reqBase).1 k = some (some v) →
        v ≠ "" → anyKey [("ETag", some "\"custom\"")] k = false →
        alookup r.headers k = some (some v)) :=
  response_header_merge md5c instC7 [] reqBase "GET" (.pstr "body")
    [("ETag", some "\"custom\"")] rfl rfl rfl

/-- An ETag capability declaring a validated parameter `tag`: invoking it
for a request that supplies no `tag` value raises inside the condition
step. -/
def capTag : CapSpec (Option String) :=
  { params := ["tag"], validations := some [("tag", { re := none })],
    impl := fun _ => some "x" }

def msNoParams : MethodSpec :=
  { params := [], validations := none, impl := fun _ => .plain (.pstr "ok") }

def instEtagRaise : ResourceInstanceX :=
  { attrs := [("GET", true), ("get_etag", true)],
    methods := [("GET", msNoParams)], classValidations := none,
    etagCap := some capTag, lastModifiedCap := none }

theorem error_handling_amended_witness :
    callResourceX md5c instEtagRaise [] reqC8 =
      .error "Value for tag must not be empty." :=
  (error_handling_amended md5c instEtagRaise [] reqC8
    "Value for tag must not be empty.").mpr ⟨"GET", rfl, Or.inl rfl⟩

def reqC9 : ReqCtx :=
  { reqBase with
      method := "POST", contentMD5 := some "deadbeef", rawBody := [1, 2] }

def md5C9 : List Nat → String := fun _ => "feedface"

def instC9 : ResourceInstance :=
  { attrs := [("POST", true)], methods := [], classValidations := none,
    etagReturn := none, lastModifiedReturn := none }

theorem content_md5_mismatch_short_circuit_witness :
    callResource md5C9 instC9 [] reqC9 =
      .ok (getResponse400 []
        "The Content-MD5 request header does not match the body.") :=
  (content_md5_mismatch_short_circuit md5C9 instC9 [] reqC9 "deadbeef" rfl
    (by decide) (by decide)).2.1

theorem default_header_container_shared_witness :
    ("X-Leak", some "1") ∈ (getResponse405Call
      (getResponse405Call [("X-Leak", some "1")] instC9 none).1
      instC9 none).2.headers :=
  (default_header_container_shared [("X-Leak", some "1")] [] instC9 instC9
    "X-Leak" (some "1")).2.2.2.1 (by decide) (by decide)

end WsgiService
